import Mathlib

/-!
Verification of the DSView backend's Execution Tracing & Semantic
Step-Synthesis Engine against its natural-language specification.

Shallow embedding of the relevant Python modules:
* `app/services/simulators/operations/behavior_analyzer.py`
* `app/services/simulators/operations/complexity_analyzer.py`
* `app/services/simulators/interactive_python_executor.py` (trace wrapper)
* `app/services/simulators/direct_code_executor.py`
* `app/api/controllers/playground.py` and `app/utils/execution_helpers.py`

Python dictionaries carrying boolean evidence flags become Lean structures;
the mutable-state analyses become explicit state threading; machine-level
concerns (timings, memory, process boundaries) are abstracted as data.
-/

/-! ## String helpers (Python `in`, `.lower()` on method names) -/

/-- Is `nee` a prefix of `hay` (over characters)?  Used to model Python's
substring test `nee in hay`. -/
def charPrefix : List Char → List Char → Bool
  | _, [] => true
  | [], _ :: _ => false
  | h :: ht, n :: nt => h == n && charPrefix ht nt

/-- Does `hay` contain `nee` as a contiguous substring (Python `nee in hay`)? -/
def charSub (nee : List Char) : List Char → Bool
  | [] => charPrefix [] nee
  | c :: t => charPrefix (c :: t) nee || charSub nee t

/-- Python `nee in hay` for strings. -/
def strIn (nee hay : String) : Bool := charSub nee.toList hay.toList

/-- Python `s.startswith(pre)`. -/
def strStarts (s pre : String) : Bool := charPrefix s.toList pre.toList

/-- Python `str.lower()` (ASCII method names only appear in the analysed code). -/
def strLower (s : String) : String := String.mk (s.toList.map Char.toLower)

/-- Python `any(word in name_lower for word in words)`. -/
def containsAnyOf (nameLower : String) (words : List String) : Bool :=
  words.any (fun w => strIn w nameLower)

/-! ## Behavior analyzer AST
A small Python expression/statement syntax covering exactly the shapes that
`BehaviorAnalyzer._analyze_statements` and its helpers inspect. -/

/-- Comparison operators distinguished by `_is_tail_finding_loop`
(`ast.NotEq`, `ast.IsNot`) and the generic rest. -/
inductive BCmpOp where
  | eqOp | notEq | isOp | isNot | other
deriving DecidableEq, Repr

/-- Python expressions, as far as the behavior analyzer pattern-matches them. -/
inductive BExpr where
  | nameE (id : String)
  | constNone
  | constInt (n : Int)
  | constStr (s : String)
  | attributeE (obj : BExpr) (attr : String)
  | call (func : BExpr) (args : List BExpr)
  | compare (left : BExpr) (op : BCmpOp) (comparator : BExpr)
  | subscript (obj : BExpr) (slice : BExpr)
  | unaryUSub (operand : BExpr)
deriving Repr

/-- Python statements, as far as the behavior analyzer walks them.
`_analyze_statements` recurses into loop bodies and if/else bodies only. -/
inductive BStmt where
  | whileS (test : BExpr) (body : List BStmt)
  | forS (body : List BStmt)
  | ifS (test : BExpr) (body : List BStmt) (orelse : List BStmt)
  | assign (targets : List BExpr) (value : BExpr)
  | exprS (value : BExpr)
  | ret (value : Option BExpr)
  | passS
deriving Repr

/-- The `method_name_hints` dict of `_get_method_name_hints`. -/
structure MethodNameHints where
  isInsert : Bool
  isDelete : Bool
  isTraverse : Bool
  isFront : Bool
  isLast : Bool
  isGetter : Bool
  isInit : Bool
deriving DecidableEq, Repr

/-- `BehaviorAnalyzer._get_method_name_hints`. -/
def getMethodNameHints (methodName : String) : MethodNameHints :=
  let nl := strLower methodName
  { isInsert := containsAnyOf nl [("insert"), ("add"), ("push"), ("append")]
    isDelete := containsAnyOf nl [("delete"), ("remove"), ("pop"), ("del")]
    isTraverse := containsAnyOf nl [("traverse"), ("print"), ("display"), ("show"), ("list")]
    isFront := containsAnyOf nl [("front"), ("first"), ("head"), ("begin")]
    isLast := containsAnyOf nl [("last"), ("end"), ("tail"), ("back")]
    isGetter := strStarts nl ("get")
      || nl ∈ [("size"), ("length"), ("count"), ("empty")]
    isInit := methodName == ("__init__") }

/-- The mutable `behavior` dict of `_analyze_method_behavior_from_ast`:
one boolean evidence flag per key (flags only ever get set to `True`). -/
structure Behavior where
  name : String
  params : List String
  hasLoop : Bool := false
  hasPrint : Bool := false
  createsNewNode : Bool := false
  modifiesHead : Bool := false
  modifiesCount : Bool := false
  modifiesNextPointers : Bool := false
  checksEmptyList : Bool := false
  traversesList : Bool := false
  findsTarget : Bool := false
  usesAppend : Bool := false
  usesPop : Bool := false
  usesPeek : Bool := false
  returnsSize : Bool := false
  checksEmpty : Bool := false
  usesPeekBack : Bool := false
  usesPeekFront : Bool := false
  usesPop0 : Bool := false
  usesPopleft : Bool := false
  isGraphAddVertex : Bool := false
  isGraphAddEdge : Bool := false
  traversesToEnd : Bool := false
deriving DecidableEq, Repr

/-- `BehaviorAnalyzer._is_empty_list_check`: `if self.head is None`-style tests. -/
def isEmptyListCheck : BExpr → Bool
  | .compare (.attributeE _ a) _ .constNone => a == ("head")
  | _ => false

/-- `BehaviorAnalyzer._is_target_finding`: comparisons whose left side is an
attribute named `name`/`data`/`value`. -/
def isTargetFinding : BExpr → Bool
  | .compare (.attributeE _ a) _ _ => a ∈ [("name"), ("data"), ("value")]
  | _ => false

/-- `BehaviorAnalyzer._is_tail_finding_loop`: `while x.next != None` /
`while x.next is not None`. -/
def isTailFindingLoop : BExpr → Bool
  | .compare (.attributeE _ a) op .constNone =>
      a == ("next") && (op == BCmpOp.notEq || op == BCmpOp.isNot)
  | _ => false

/-- `BehaviorAnalyzer._analyze_assignment`, one target at a time. -/
def analyzeAssignTarget (value : BExpr) (b : Behavior) (target : BExpr) : Behavior :=
  match target with
  | .attributeE _ attr =>
      if attr == ("head") then { b with modifiesHead := true }
      else if attr == ("count") then { b with modifiesCount := true }
      else if attr == ("next") then { b with modifiesNextPointers := true }
      else b
  | .nameE tid =>
      match value with
      | .call f _ =>
          match f with
          | .nameE fid =>
              if fid ∈ [("DataNode"), ("Node")] then { b with createsNewNode := true } else b
          | .attributeE _ _ =>
              if tid ∈ [("new_node"), ("node")] then { b with createsNewNode := true } else b
          | _ => b
      | _ => b
  | _ => b

/-- `BehaviorAnalyzer._analyze_assignment` over all targets. -/
def analyzeAssignment (b : Behavior) (targets : List BExpr) (value : BExpr) : Behavior :=
  targets.foldl (analyzeAssignTarget value) b

/-- The `ast.Expr`-with-`ast.Call` case of `_analyze_statements`
(container-primitive detection and `print` detection). -/
def analyzeExprStmt (b : Behavior) (value : BExpr) : Behavior :=
  match value with
  | .call f args =>
      let b :=
        match f with
        | .attributeE _ m =>
            if m == ("append") then { b with usesAppend := true }
            else if m == ("pop") then
              let b := { b with usesPop := true }
              match args.head? with
              | some (.constInt 0) => { b with usesPop0 := true }
              | _ => b
            else if m == ("popleft") then { b with usesPopleft := true }
            else if m == ("add_vertex") then { b with isGraphAddVertex := true }
            else if m == ("add_edge") then { b with isGraphAddEdge := true }
            else b
        | _ => b
      match f with
      | .nameE fid => if fid == ("print") then { b with hasPrint := true } else b
      | _ => b
  | _ => b

/-- The `ast.Return` case of `_analyze_statements`.  The pre-3.9 `ast.Index`
block is a no-op on modern nodes (an `ast.Constant`'s `.value` is a raw
scalar, never an AST node), so it contributes nothing here. -/
def analyzeReturn (b : Behavior) : Option BExpr → Behavior
  | some (.attributeE _ a) =>
      if a == ("size") then { b with returnsSize := true } else b
  | some (.call (.nameE fid) _) =>
      if fid == ("len") then { b with returnsSize := true } else b
  | some (.subscript _ slice) =>
      let b :=
        match slice with
        | .unaryUSub (.constInt 1) => { b with usesPeekBack := true }
        | _ => b
      match slice with
      | .constInt 0 => { b with usesPeekFront := true }
      | _ => b
  | _ => b

mutual

/-- `BehaviorAnalyzer._analyze_statements`, statement case. -/
def analyzeStmt (b : Behavior) : BStmt → Behavior
  | .whileS test body =>
      let b := { b with hasLoop := true, traversesList := true }
      let b := if isTailFindingLoop test then { b with traversesToEnd := true } else b
      analyzeStmts b body
  | .forS body =>
      let b := { b with hasLoop := true, traversesList := true }
      analyzeStmts b body
  | .ifS test body orelse =>
      let b := if isEmptyListCheck test then { b with checksEmptyList := true } else b
      let b := if isTargetFinding test then { b with findsTarget := true } else b
      analyzeStmts (analyzeStmts b body) orelse
  | .assign targets value => analyzeAssignment b targets value
  | .exprS value => analyzeExprStmt b value
  | .ret value => analyzeReturn b value
  | .passS => b

/-- `BehaviorAnalyzer._analyze_statements`, statement-list traversal. -/
def analyzeStmts (b : Behavior) : List BStmt → Behavior
  | [] => b
  | s :: rest => analyzeStmts (analyzeStmt b s) rest

end

/-- `BehaviorAnalyzer._classify_behavior_by_logic` — the second definition in
the class body, which (by Python semantics) shadows the first and is the one
actually executed. -/
def classifyBehaviorByLogic (b : Behavior) : String :=
  let hints := getMethodNameHints b.name
  let nl := strLower b.name
  if hints.isInit then ("constructor")
  else if b.usesAppend then ("push")
  else if b.usesPop then ("pop")
  else if b.usesPeek then ("stackTop")
  else if hints.isGetter && (b.returnsSize || strIn ("size") nl) then ("size")
  else if hints.isGetter && (b.checksEmpty || strIn ("empty") nl) then ("is_empty")
  else if b.hasPrint && !b.createsNewNode then ("printStack")
  else if b.usesPop0 || b.usesPopleft then ("dequeue")
  else if b.usesPeekFront then ("front")
  else if b.usesPeekBack then ("back")
  else if hints.isInsert then ("insert")
  else if hints.isDelete then ("delete")
  else if hints.isTraverse then
    if strIn ("pre") nl then ("preorder")
    else if strIn ("post") nl then ("postorder")
    else ("inorder")
  else if strIn ("min") nl then ("findMin")
  else if strIn ("max") nl then ("findMax")
  else if b.isGraphAddVertex || strIn ("add_vertex") nl then ("add_vertex")
  else if b.isGraphAddEdge || strIn ("add_edge") nl then ("add_edge")
  else if strIn ("bfs") nl then ("bfs")
  else if strIn ("dfs") nl then ("dfs")
  else if ((b.hasPrint && b.traversesList) || hints.isTraverse)
      && !b.modifiesHead && !b.createsNewNode then ("traverse")
  else if b.createsNewNode && b.hasLoop && !b.modifiesHead && b.modifiesNextPointers then
    ("insert_last")
  else if b.createsNewNode && b.modifiesHead && !b.hasLoop then ("insert_front")
  else if b.createsNewNode && b.hasLoop && b.findsTarget && b.modifiesNextPointers then
    ("insert_before")
  else if b.createsNewNode && hints.isInsert then
    if hints.isFront then ("insert_front")
    else if hints.isLast then ("insert_last")
    else ("insert_front")
  else if (b.findsTarget && !b.createsNewNode && (b.modifiesHead || b.modifiesNextPointers))
      || hints.isDelete then ("delete")
  else if hints.isGetter
      || (!b.createsNewNode && !b.modifiesHead && !b.modifiesCount && !b.hasLoop) then
    ("getter")
  else ("unknown")

/-- `BehaviorAnalyzer._analyze_method_behavior_from_ast`: build the evidence
flags from the body, starting from the all-false dict. -/
def analyzeMethodBehavior (name : String) (params : List String) (body : List BStmt) :
    Behavior :=
  analyzeStmts { name := name, params := params } body

/-- End-to-end per-method classification (`behavior["behavior_type"]`). -/
def classifyMethod (name : String) (params : List String) (body : List BStmt) : String :=
  classifyBehaviorByLogic (analyzeMethodBehavior name params body)

/-- A method body consisting solely of `obj.append(args)` expression
statements, one per entry of `calls`. -/
def appendOnlyBody (calls : List (BExpr × List BExpr)) : List BStmt :=
  calls.map (fun p => BStmt.exprS (.call (.attributeE p.1 ("append")) p.2))

/-- A Python method body of the shape
`new_node = Node(data); while cur.next != None: cur = cur.next;
cur.next = new_node` — it creates a node, loops over a `.next` chain,
modifies next-pointers and never touches `head`. -/
def bodyInsertEnd : List BStmt :=
  [ .assign [.nameE ("new_node")] (.call (.nameE ("Node")) [.nameE ("data")]),
    .whileS (.compare (.attributeE (.nameE ("cur")) ("next")) .notEq .constNone)
      [ .assign [.nameE ("cur")] (.attributeE (.nameE ("cur")) ("next")) ],
    .assign [.attributeE (.nameE ("cur")) ("next")] (.nameE ("new_node")) ]

/-! ## Complexity analyzer
Embedding of `ComplexityAnalyzer` (`complexity_analyzer.py`): a generic AST
node type mirroring `ast.iter_child_nodes` traversal, the per-function
`count_loops` closure of `_analyze_function`, `_is_constant_loop`, the
module-level `_analyze_node`, and the two decision tables. -/

/-- Python AST nodes as traversed by the complexity analyzer.  `orelse`
fields mirror `ast.For`/`ast.While`.  (Literal-container and comprehension
nodes, which only feed the space heuristics, are not needed here.) -/
inductive CNode where
  | functionDef (fname : String) (body : List CNode)
  | forLoop (target : CNode) (iter : CNode) (body : List CNode) (orelse : List CNode)
  | whileLoop (test : CNode) (body : List CNode) (orelse : List CNode)
  | callN (func : CNode) (args : List CNode)
  | nameN (id : String)
  | attributeN (obj : CNode) (attr : String)
  | constN (n : Int)
  | exprN (value : CNode)
  | assignN (targets : List CNode) (value : CNode)
  | passN
deriving Repr

/-- Mutable counters of the `count_loops` closure in `_analyze_function`. -/
structure FuncCounts where
  loopCount : Nat := 0
  maxNesting : Nat := 0
  hasRecursion : Bool := false
  hasGrowing : Bool := false
deriving DecidableEq, Repr

mutual

/-- The `count_loops(n, depth)` closure of `_analyze_function`: every
`For`/`While` bumps `loop_count` and the nesting depth (no constant-loop
test here), `Call` nodes feed the recursion/growth flags, and all other
nodes recurse into their children at the same depth. -/
def countLoops (funcName : String) (depth : Nat) (st : FuncCounts) : CNode → FuncCounts
  | .forLoop target iter body orelse =>
      let st := { st with loopCount := st.loopCount + 1,
                          maxNesting := max st.maxNesting (depth + 1) }
      countLoopsList funcName (depth + 1)
        (countLoopsList funcName (depth + 1)
          (countLoops funcName (depth + 1) (countLoops funcName (depth + 1) st target) iter)
          body) orelse
  | .whileLoop test body orelse =>
      let st := { st with loopCount := st.loopCount + 1,
                          maxNesting := max st.maxNesting (depth + 1) }
      countLoopsList funcName (depth + 1)
        (countLoopsList funcName (depth + 1)
          (countLoops funcName (depth + 1) st test) body) orelse
  | .callN func args =>
      let st :=
        match func with
        | .nameN id => if id == funcName then { st with hasRecursion := true } else st
        | .attributeN _ a =>
            if a ∈ [("append"), ("extend"), ("insert"), ("add")] then
              { st with hasGrowing := true }
            else st
        | _ => st
      countLoopsList funcName depth (countLoops funcName depth st func) args
  | .functionDef _ body => countLoopsList funcName depth st body
  | .nameN _ => st
  | .attributeN obj _ => countLoops funcName depth st obj
  | .constN _ => st
  | .exprN value => countLoops funcName depth st value
  | .assignN targets value =>
      countLoops funcName depth (countLoopsList funcName depth st targets) value
  | .passN => st

/-- `count_loops` folded over a child list (`ast.iter_child_nodes` order). -/
def countLoopsList (funcName : String) (depth : Nat) (st : FuncCounts) :
    List CNode → FuncCounts
  | [] => st
  | n :: rest => countLoopsList funcName depth (countLoops funcName depth st n) rest

end

/-- The time-complexity decision table at the end of `_analyze_function`. -/
def funcTimeComplexity (st : FuncCounts) : String :=
  if st.hasRecursion then
    if st.maxNesting ≥ 2 then ("O(2^n)")
    else if st.maxNesting == 1 then ("O(n²)")
    else ("O(n)")
  else if st.maxNesting ≥ 3 then ("O(n³)")
  else if st.maxNesting == 2 then ("O(n²)")
  else if st.maxNesting == 1 || st.loopCount > 0 then ("O(n)")
  else ("O(1)")

/-- `ComplexityAnalyzer._analyze_function` applied to `FunctionDef fname body`
(the node itself is neither loop nor call, so `count_loops` starts on its
children at depth 0), returning the per-function time complexity. -/
def analyzeFunctionTime (fname : String) (body : List CNode) : String :=
  funcTimeComplexity (countLoopsList fname 0 {} body)

/-- `ComplexityAnalyzer.COMPLEXITY_RANK.get(tc, 3)`. -/
def complexityRank (tc : String) : Nat :=
  if tc == ("O(1)") then 1
  else if tc == ("O(log n)") then 2
  else if tc == ("O(n)") then 3
  else if tc == ("O(n log n)") then 4
  else if tc == ("O(n²)") then 5
  else if tc == ("O(n³)") then 6
  else if tc == ("O(2^n)") then 7
  else if tc == ("O(n!)") then 8
  else 3

/-- `ComplexityAnalyzer._is_constant_loop`: a `for` over `range(...)` whose
arguments are all literal constants. -/
def isConstantLoop : CNode → Bool
  | .forLoop _ (.callN (.nameN rid) args) _ _ =>
      rid == ("range") && args.all (fun a => match a with | .constN _ => true | _ => false)
  | _ => false

/-- Mutable counters of the module-level pass (`_analyze_node`). -/
structure OverallState where
  loopCount : Nat := 0
  maxNesting : Nat := 0
  hasRecursion : Bool := false
deriving DecidableEq, Repr

mutual

/-- `ComplexityAnalyzer._analyze_node(node, nesting)`: `__init__` bodies are
skipped; loops bump `loop_count` always but bump the nesting depth only when
`_is_constant_loop` is false; calls to a known function name set the
recursion flag; everything else recurses at the same nesting. -/
def analyzeNode (functionNames : List String) (nesting : Nat) (st : OverallState) :
    CNode → OverallState
  | .functionDef fname body =>
      if fname == ("__init__") then st
      else analyzeNodeList functionNames nesting st body
  | .forLoop target iter body orelse =>
      let st := { st with loopCount := st.loopCount + 1 }
      let isConst := isConstantLoop (.forLoop target iter body orelse)
      let newNesting := if isConst then nesting else nesting + 1
      let st := if isConst then st
        else { st with maxNesting := max st.maxNesting newNesting }
      analyzeNodeList functionNames newNesting
        (analyzeNodeList functionNames newNesting
          (analyzeNode functionNames newNesting
            (analyzeNode functionNames newNesting st target) iter) body) orelse
  | .whileLoop test body orelse =>
      let st := { st with loopCount := st.loopCount + 1 }
      let newNesting := nesting + 1
      let st := { st with maxNesting := max st.maxNesting newNesting }
      analyzeNodeList functionNames newNesting
        (analyzeNodeList functionNames newNesting
          (analyzeNode functionNames newNesting st test) body) orelse
  | .callN func args =>
      let st :=
        match func with
        | .nameN id => if id ∈ functionNames then { st with hasRecursion := true } else st
        | _ => st
      analyzeNodeList functionNames nesting
        (analyzeNode functionNames nesting st func) args
  | .nameN _ => st
  | .attributeN obj _ => analyzeNode functionNames nesting st obj
  | .constN _ => st
  | .exprN value => analyzeNode functionNames nesting st value
  | .assignN targets value =>
      analyzeNode functionNames nesting
        (analyzeNodeList functionNames nesting st targets) value
  | .passN => st

/-- `_analyze_node` folded over a child list. -/
def analyzeNodeList (functionNames : List String) (nesting : Nat) (st : OverallState) :
    List CNode → OverallState
  | [] => st
  | n :: rest => analyzeNodeList functionNames nesting (analyzeNode functionNames nesting st n) rest

end

mutual

/-- `ast.walk` collection of `FunctionDef` names (`self.function_names`). -/
def collectFunctionNames : CNode → List String
  | .functionDef fname body => fname :: collectFunctionNamesList body
  | .forLoop target iter body orelse =>
      collectFunctionNames target ++ collectFunctionNames iter ++
        collectFunctionNamesList body ++ collectFunctionNamesList orelse
  | .whileLoop test body orelse =>
      collectFunctionNames test ++ collectFunctionNamesList body ++
        collectFunctionNamesList orelse
  | .callN func args => collectFunctionNames func ++ collectFunctionNamesList args
  | .nameN _ => []
  | .attributeN obj _ => collectFunctionNames obj
  | .constN _ => []
  | .exprN value => collectFunctionNames value
  | .assignN targets value =>
      collectFunctionNamesList targets ++ collectFunctionNames value
  | .passN => []

/-- `collectFunctionNames` over a node list. -/
def collectFunctionNamesList : List CNode → List String
  | [] => []
  | n :: rest => collectFunctionNames n ++ collectFunctionNamesList rest

end

/-- `ComplexityAnalyzer._determine_time_complexity` (overall). -/
def overallTimeComplexity (st : OverallState) : String :=
  if st.maxNesting ≥ 3 then ("O(n³)")
  else if st.maxNesting == 2 then ("O(n²)")
  else if st.maxNesting == 1 || st.loopCount > 0 || st.hasRecursion then ("O(n)")
  else ("O(1)")

/-- `ComplexityAnalyzer.analyze` restricted to the overall time complexity of
a module (a top-level statement list): collect function names, run
`_analyze_node` from nesting 0, apply the decision table. -/
def analyzeOverallTime (moduleBody : List CNode) : String :=
  overallTimeComplexity
    (analyzeNodeList (collectFunctionNamesList moduleBody) 0 {} moduleBody)

/-- `for i in range(5): x = 1` — a loop with a literal, variable-independent
bound. -/
def constLoopFor : CNode :=
  .forLoop (.nameN ("i")) (.callN (.nameN ("range")) [.constN 5])
    [.assignN [.nameN ("x")] (.constN 1)] []

/-- `for i in range(n): for j in range(100): x = 1` — variable outer loop,
constant inner loop. -/
def varOverConstLoops : CNode :=
  .forLoop (.nameN ("i")) (.callN (.nameN ("range")) [.nameN ("n")])
    [.forLoop (.nameN ("j")) (.callN (.nameN ("range")) [.constN 100])
      [.assignN [.nameN ("x")] (.constN 1)] []] []

/-- `for i in range(n): for j in range(n): x = 1` — two variable loops. -/
def varOverVarLoops : CNode :=
  .forLoop (.nameN ("i")) (.callN (.nameN ("range")) [.nameN ("n")])
    [.forLoop (.nameN ("j")) (.callN (.nameN ("range")) [.nameN ("n")])
      [.assignN [.nameN ("x")] (.constN 1)] []] []

/-! ## Safe state serializer
Embedding of the `safe_serialize` trace-wrapper function of
`interactive_python_executor.py`.  Guest values are modelled as Python
references: every compound value (list, dict, set, class instance) lives in
a heap indexed by its `id()`; scalars are immediate.  The global `_seen_ids`
set becomes an explicit threaded list of ids.  Only the serialization mode
is modelled (`return_size=False`; no caller ever passes `True`). -/

/-- A guest Python value: scalars are immediate, compound values are
references into the heap (their `id()`). -/
inductive PyVal where
  | noneV
  | boolV (b : Bool)
  | intV (n : Int)
  | strV (s : String)
  | ref (oid : Nat)
deriving DecidableEq, Repr

/-- A heap object: a list (`tuple` follows the identical branch), a dict,
a set, or a class instance with its `__dict__` and type name. -/
inductive PyObj where
  | listO (items : List PyVal)
  | dictO (entries : List (PyVal × PyVal))
  | setO (items : List PyVal)
  | instO (typeName : String) (fields : List (String × PyVal))
deriving Repr

/-- The guest heap: `id()` to object.  (Python ids always resolve.) -/
def Heap : Type := Nat → PyObj

/-- Serialized (JSON-safe) values produced by `safe_serialize`.  Instance
maps keep their string field names plus the synthetic `type` entry;
serialized dicts keep their original scalar keys. -/
inductive SVal where
  | nullV
  | boolV (b : Bool)
  | intV (n : Int)
  | strV (s : String)
  | listV (items : List SVal)
  | dictV (entries : List (PyVal × SVal))
  | objV (typeName : String) (fields : List (String × SVal))
deriving Repr

/-- Python `str(...)` on the scalar values the cycle-label path can meet
(the `isinstance(val, (int, float, str, bool))` guard holds there). -/
def pyStr : PyVal → String
  | .noneV => ("None")
  | .boolV true => ("True")
  | .boolV false => ("False")
  | .intV n => toString n
  | .strV s => s
  | .ref oid => ("<object ") ++ toString oid ++ (">")

/-- The scalar test of the cycle-label block.  The Python condition
`isinstance(val,(int,float,str,bool)) and not isinstance(val,bool) or
isinstance(val,bool)` is, by precedence, equivalent to
`isinstance(val,(int,float,str,bool))`. -/
def isScalar : PyVal → Bool
  | .boolV _ => true
  | .intV _ => true
  | .strV _ => true
  | _ => false

/-- `obj.__dict__` lookup (`key in obj_dict` / `obj_dict[key]`). -/
def lookupField (fields : List (String × PyVal)) (k : String) : Option PyVal :=
  (fields.find? (fun p => p.1 == k)).map (fun p => p.2)

/-- Probe the keys `data, val, value, id, name, key` in order; return the
first present one holding a scalar (the cycle-label loop). -/
def findScalarKeyVal (fields : List (String × PyVal)) : List String → Option PyVal
  | [] => none
  | k :: rest =>
      match lookupField fields k with
      | some v => if isScalar v then some v else findScalarKeyVal fields rest
      | none => findScalarKeyVal fields rest

/-- `type(obj).__name__`. -/
def typeNameOf : PyObj → String
  | .listO _ => ("list")
  | .dictO _ => ("dict")
  | .setO _ => ("set")
  | .instO tn _ => tn

/-- The key-probe order of the cycle-label block. -/
def cycleKeyOrder : List String :=
  [("data"), ("val"), ("value"), ("id"), ("name"), ("key")]

/-- The `if obj_id in _seen_ids` rendering: `TypeName(keyAttributeValue)`
when the instance has a recognizable scalar key attribute, else just the
type name (builtin containers have no `__dict__`). -/
def circularLabel (o : PyObj) : String :=
  match o with
  | .instO tn fields =>
      match findScalarKeyVal fields cycleKeyOrder with
      | some v => tn ++ ("(") ++ pyStr v ++ (")")
      | none => tn
  | _ => typeNameOf o

/-- Python `str(obj)` default rendering of an instance without
data-structure-like attributes (`<TypeName object at 0x...>`; the address
is the object's id). -/
def strOfInst (typeName : String) (oid : Nat) : String :=
  ("<") ++ typeName ++ (" object at ") ++ toString oid ++ (">")

/-- The attribute vocabulary `ds_keys` that makes an instance worth
expanding. -/
def dsKeys : List String :=
  [("head"), ("next"), ("prev"), ("data"), ("val"), ("value"), ("count"), ("root"),
   ("nodes"), ("edges"), ("left"), ("right"), ("adjacency_list"), ("graph"), ("adj_list")]

mutual

/-- `safe_serialize(obj, depth, max_depth)` with the global `_seen_ids`
threaded explicitly (the function only ever adds to it — its `finally`
block is `pass`).  Returns the serialized value and the updated seen set. -/
def safeSerialize (heap : Heap) (seen : List Nat) (obj : PyVal)
    (depth maxDepth : Nat) : SVal × List Nat :=
  if _hND : depth > maxDepth then (.strV ("<max depth exceeded>"), seen)
  else
    match obj with
    | .noneV => (.nullV, seen)
    | .boolV b => (.boolV b, seen)
    | .intV n => (.intV n, seen)
    | .strV s => (.strV s, seen)
    | .ref oid =>
        let o := heap oid
        if oid ∈ seen then (.strV (circularLabel o), seen)
        else
          let seen := oid :: seen
          match o with
          | .listO items =>
              if items.length > 50 then
                let p := serializeItems heap seen (items.take 50) (depth + 1) maxDepth
                (.listV (p.1 ++ [.strV ("<truncated>")]), p.2)
              else
                let p := serializeItems heap seen items (depth + 1) maxDepth
                (.listV p.1, p.2)
          | .setO items =>
              if items.length > 50 then
                let p := serializeItems heap seen (items.take 50) (depth + 1) maxDepth
                (.listV (p.1 ++ [.strV ("<truncated>")]), p.2)
              else
                let p := serializeItems heap seen items (depth + 1) maxDepth
                (.listV p.1, p.2)
          | .dictO entries =>
              if entries.length > 50 then
                let p := serializeDictCapped heap seen entries 0 (depth + 1) maxDepth
                (.dictV p.1, p.2)
              else
                let p := serializeDictAll heap seen entries (depth + 1) maxDepth
                (.dictV p.1, p.2)
          | .instO tn fields =>
              if dsKeys.any (fun k => (lookupField fields k).isSome) then
                let p := serializeFields heap seen fields (depth + 1) maxDepth
                (.objV tn p.1, p.2)
              else (.strV (strOfInst tn oid), seen)
termination_by (maxDepth + 1 - depth, 0)

/-- Element-wise serialization of list/set items (sequential, threading the
seen set exactly as the Python comprehension mutates the global). -/
def serializeItems (heap : Heap) (seen : List Nat) (items : List PyVal)
    (depth maxDepth : Nat) : List SVal × List Nat :=
  match items with
  | [] => ([], seen)
  | v :: rest =>
      let p := safeSerialize heap seen v depth maxDepth
      let q := serializeItems heap p.2 rest depth maxDepth
      (p.1 :: q.1, q.2)
termination_by (maxDepth + 1 - depth, items.length)

/-- The uncapped dict comprehension: scalar-keyed entries only. -/
def serializeDictAll (heap : Heap) (seen : List Nat) (entries : List (PyVal × PyVal))
    (depth maxDepth : Nat) : List (PyVal × SVal) × List Nat :=
  match entries with
  | [] => ([], seen)
  | (k, v) :: rest =>
      if isScalar k then
        let p := safeSerialize heap seen v depth maxDepth
        let q := serializeDictAll heap p.2 rest depth maxDepth
        ((k, p.1) :: q.1, q.2)
      else serializeDictAll heap seen rest depth maxDepth
termination_by (maxDepth + 1 - depth, entries.length)

/-- The capped (`len > 50`) dict path: serialize scalar-keyed entries,
stop after 50 with one truncation marker. -/
def serializeDictCapped (heap : Heap) (seen : List Nat) (entries : List (PyVal × PyVal))
    (count : Nat) (depth maxDepth : Nat) : List (PyVal × SVal) × List Nat :=
  match entries with
  | [] => ([], seen)
  | (k, v) :: rest =>
      if isScalar k then
        let p := safeSerialize heap seen v depth maxDepth
        if count + 1 ≥ 50 then
          ([(k, p.1), (.strV ("<truncated>"), .strV ("..."))], p.2)
        else
          let q := serializeDictCapped heap p.2 rest (count + 1) depth maxDepth
          ((k, p.1) :: q.1, q.2)
      else serializeDictCapped heap seen rest count depth maxDepth
termination_by (maxDepth + 1 - depth, entries.length)

/-- Serialization of an instance's public attributes (underscore-prefixed
names are skipped). -/
def serializeFields (heap : Heap) (seen : List Nat) (fields : List (String × PyVal))
    (depth maxDepth : Nat) : List (String × SVal) × List Nat :=
  match fields with
  | [] => ([], seen)
  | (k, v) :: rest =>
      if strStarts k ("_") then serializeFields heap seen rest depth maxDepth
      else
        let p := safeSerialize heap seen v depth maxDepth
        let q := serializeFields heap p.2 rest depth maxDepth
        ((k, p.1) :: q.1, q.2)
termination_by (maxDepth + 1 - depth, fields.length)

end

/-- A self-referential guest graph: one `Node` instance whose `next`
attribute points back to itself (`n.next = n`). -/
def selfHeap : Heap := fun _ => .instO ("Node") [(("data"), .intV 1), (("next"), .ref 0)]

/-- An acyclic one-node guest graph: a `Node` with `data = 1`,
`next = None`. -/
def nodeHeap : Heap := fun _ => .instO ("Node") [(("data"), .intV 1), (("next"), .noneV)]


/-! ## Direct code executor and playground controller
Embedding of the step-synthesis path of `DirectCodeExecutor.execute` for
interactive (traced) results, `ExecutionHelper`, and
`ExecuteController.run_code_guest`.  Step `state` dicts are restricted to
the keys the controller inspects (`error`, `waiting_for_input`); stdout
accumulation, timing and memory fields do not affect any claim. -/

/-- Python `str.strip()` (whitespace from both ends). -/
def strTrim (s : String) : String :=
  String.mk
    (((s.toList.dropWhile (fun c => c.isWhitespace)).reverse.dropWhile
      (fun c => c.isWhitespace)).reverse)

/-- One entry of the wrapper trace: a traced source line, or the exception
record appended by the `except` block of the wrapper. -/
inductive TEntry where
  | lineE (line : Nat) (output : Option String)
  | excE (error : String) (tb : String)
deriving Repr, DecidableEq

/-- The step `state` dict, restricted to the keys read downstream. -/
structure StepState where
  error : Option String := none
  waitingForInput : Bool := false
deriving Repr, DecidableEq

/-- `ExecutionStepSchema`. -/
structure Step where
  stepNumber : Nat
  line : Nat
  code : String
  state : StepState
deriving Repr, DecidableEq

/-- `code_lines[line_no - 1].strip()` guarded by `1 <= line_no <= len`. -/
def lineCode (codeLines : List String) (ln : Nat) : String :=
  if 1 ≤ ln ∧ ln ≤ codeLines.length then strTrim (codeLines.getD (ln - 1) (""))
  else ("")

/-- The trace loop of `_create_steps_from_result`: one step per trace entry,
skipping empty/comment lines without consuming a step number; an exception
entry becomes a step that reuses the position of the previous step and carries
the error in its state. -/
def buildSteps (codeLines : List String) : List TEntry → List Step → Nat → List Step
  | [], acc, _ => acc
  | .excE err _ :: rest, acc, n =>
      let st : Step :=
        { stepNumber := n
          line := ((acc.getLast?).map (fun s => s.line)).getD 1
          code := ((acc.getLast?).map (fun s => s.code)).getD ("")
          state := { error := some err } }
      buildSteps codeLines rest (acc ++ [st]) (n + 1)
  | .lineE ln _ :: rest, acc, n =>
      let c := lineCode codeLines ln
      if c == ("") || strStarts c ("#") then buildSteps codeLines rest acc n
      else
        buildSteps codeLines rest
          (acc ++ [{ stepNumber := n, line := ln, code := c, state := {} }]) (n + 1)

/-- How many trace entries yield a step (everything except skipped
empty/comment lines). -/
def countableEntries (codeLines : List String) : List TEntry → Nat
  | [] => 0
  | .excE _ _ :: rest => countableEntries codeLines rest + 1
  | .lineE ln _ :: rest =>
      let c := lineCode codeLines ln
      if c == ("") || strStarts c ("#") then countableEntries codeLines rest
      else countableEntries codeLines rest + 1

/-- The print-scan fallback of `_create_steps_from_result` (reached only
when the trace yields no steps): one step per non-comment line containing a
`print(` call, numbered consecutively from `n`. -/
def buildPrintSteps (n ln : Nat) : List String → List Step
  | [] => []
  | l :: rest =>
      let c := strTrim l
      if strStarts c ("#") then buildPrintSteps n (ln + 1) rest
      else if strStarts c ("print(") || strIn ("print(") c then
        { stepNumber := n, line := ln, code := c, state := {} }
          :: buildPrintSteps (n + 1) (ln + 1) rest
      else buildPrintSteps n (ln + 1) rest

/-- End of the fallback path: if no print steps were created, one general
execution step (at the incoming step number) is returned instead. -/
def printFallback (codeLines : List String) (n : Nat) : List Step :=
  let printSteps := buildPrintSteps n 1 codeLines
  if printSteps.isEmpty then
    [{ stepNumber := n, line := 1, code := codeLines.headD (""), state := {} }]
  else printSteps

/-- `InteractiveExecutionResult`, restricted to the fields `execute` reads
(`waitingSignal` is the parsed `__WAITING_FOR_INPUT__` line when the magic
marker is present in stdout). -/
structure IResult where
  exitCode : Int
  timedOut : Bool
  stderr : String
  trace : List TEntry
  waitingSignal : Option Nat
deriving Repr, DecidableEq

/-- `_create_steps_from_result` for an interactive result: trace-derived
steps when the trace yields any, else the print-scan fallback. -/
def createStepsFromResult (codeLines : List String) (r : IResult) (n : Nat) : List Step :=
  let traceSteps := if r.trace.isEmpty then [] else buildSteps codeLines r.trace [] n
  if traceSteps.isEmpty then printFallback codeLines n else traceSteps

/-- `DirectCodeExecutor._create_error_step`. -/
def createErrorStep (codeLines : List String) (r : IResult) (n : Nat) : List Step :=
  [{ stepNumber := n
     line := 1
     code := codeLines.headD ("")
     state := { error := some (if r.stderr == ("") then ("Execution failed")
                               else r.stderr) } }]

/-- The waiting step appended when a `__WAITING_FOR_INPUT__` signal was
found in stdout. -/
def waitingStep (codeLines : List String) (ln n : Nat) : Step :=
  { stepNumber := n
    line := ln
    code := strTrim (codeLines.getD (ln - 1) (""))
    state := { waitingForInput := true } }

/-- `DirectCodeExecutor.execute`, interactive branch: always synthesize the
trace steps first; on a non-zero exit code append the terminal error step
(numbered `step_number + len(steps)` with `step_number = 1`); finally append
a waiting step if the stdout signal was present. -/
def executeInteractive (codeLines : List String) (r : IResult) : List Step :=
  let steps := createStepsFromResult codeLines r 1
  let steps :=
    if r.exitCode ≠ 0 then steps ++ createErrorStep codeLines r (1 + steps.length)
    else steps
  match r.waitingSignal with
  | some ln => steps ++ [waitingStep codeLines ln (steps.length + 1)]
  | none => steps

/-! ### Playground controller (`ExecuteController.run_code_guest`,
`ExecutionHelper.create_error_response`) -/

/-- `ExecutionResponse`, restricted to the fields the claims mention. -/
structure ExecutionResponse where
  executionId : String
  code : String
  dataType : String
  steps : List Step
  totalSteps : Nat
  status : String
  errorMessage : Option String
deriving Repr, DecidableEq

/-- `ExecutionCreateRequest`. -/
structure ExecutionCreateRequest where
  code : String
  dataType : Option String
  inputValues : List String
  autoDetect : Bool
deriving Repr, DecidableEq

/-- Python exceptions escaping `run_code_guest`. -/
inductive PyError where
  | attributeError (msg : String)
  | valueError (msg : String)
  | notImplementedError (msg : String)
deriving Repr, DecidableEq

/-- `ExecutionHelper.create_error_response`: status is always `"error"`. -/
def createErrorResponse (execId code dataType errorMessage : String)
    (steps : List Step) : ExecutionResponse :=
  { executionId := execId
    code := code
    dataType := dataType
    steps := steps
    totalSteps := steps.length
    status := ("error")
    errorMessage := some errorMessage }

/-- The error scan of `run_code_guest`: first step whose state carries a
non-blank error string. -/
def findErrorMessage : List Step → Option String
  | [] => none
  | s :: rest =>
      match s.state.error with
      | some e => if strTrim e == ("") then findErrorMessage rest else some e
      | none => findErrorMessage rest

/-- The attributes `ExecuteController.__init__` actually sets. -/
def controllerInitAttrs : List String := [("simulator_factory")]

/-- Python attribute lookup on the controller: `AttributeError` for
anything `__init__` did not set. -/
def controllerGetattr (attrName : String) : Except PyError Unit :=
  if attrName ∈ controllerInitAttrs then .ok ()
  else
    .error (.attributeError
      (("\x27ExecuteController\x27 object has no attribute \x27") ++ attrName ++ ("\x27")))

/-- `SimulatorFactory._simulators` keys. -/
def supportedTypes : List String :=
  [("stack"), ("singlylinkedlist"), ("doublylinkedlist"), ("binarysearchtree"),
   ("graph"), ("undirectedgraph"), ("directedgraph"), ("queue")]

/-- Outcome of `_execute_with_timeout` as observed by `run_code_guest`:
the wall-clock timeout, a raised exception, or a returned step list. -/
inductive ExecOutcome where
  | timeout
  | raised (msg : String)
  | completed (steps : List Step)
deriving Repr, DecidableEq

/-- `ExecuteController.run_code_guest`.  The auto-detect branch dereferences
`self.detector` before anything else; the `.ok` continuation of that lookup
(where `detect_from_code` would run) is unreachable because `__init__`
never sets the attribute.  The timeout and exception handlers both build
the response through `create_error_response`. -/
def runCodeGuest (req : ExecutionCreateRequest) (execId : String)
    (outcome : ExecOutcome) : Except PyError ExecutionResponse :=
  let code := strTrim req.code
  let dt := (req.dataType.getD (""))
  if dt == ("") || dt == ("auto") || req.autoDetect then
    match controllerGetattr ("detector") with
    | .error e => .error e
    | .ok _ =>
        -- `self.detector.detect_from_code(code)` would run here; dead code.
        .error (.valueError ("Could not auto-detect data structure type."))
  else if !(supportedTypes.contains (strLower dt)) then
    .error (.notImplementedError (("DataType \x27") ++ dt ++ ("\x27 not supported yet.")))
  else
    match outcome with
    | .timeout =>
        .ok (createErrorResponse execId code dt
          ("Execution timeout - code took too long to execute") [])
    | .raised msg => .ok (createErrorResponse execId code dt msg [])
    | .completed steps =>
        match findErrorMessage steps with
        | some msg => .ok (createErrorResponse execId code dt msg steps)
        | none =>
            let isWaiting :=
              match steps.getLast? with
              | some s => s.state.waitingForInput
              | none => false
            .ok { executionId := execId
                  code := code
                  dataType := dt
                  steps := steps
                  totalSteps := steps.length
                  status := if isWaiting then ("waiting") else ("success")
                  errorMessage := none }

/-! ### Interactive input shim (`custom_input` in the trace wrapper) -/

/-- `custom_input`: consume the next pre-supplied value, or fail with the
dedicated no-more-input error instead of blocking. -/
def customInput (inputValues : List String) (inputIndex : Nat) :
    Except String (String × Nat) :=
  if inputIndex < inputValues.length then
    .ok (inputValues.getD inputIndex (""), inputIndex + 1)
  else .error ("No more input provided")

/-- A guest that issues `k` interactive-input requests through the shim. -/
def runInputRequests (inputValues : List String) : Nat → Nat → Except String Nat
  | 0, idx => .ok idx
  | k + 1, idx =>
      match customInput inputValues idx with
      | .ok p => runInputRequests inputValues k p.2
      | .error e => .error e

/-- The wrapper's `except` block: a guest exception is caught and recorded
as one exception entry at the end of the trace (the process still exits
cleanly, so `exit_code = 0`). -/
def wrapperTrace (pre : List TEntry) (guestError : Option String) : List TEntry :=
  match guestError with
  | some e => pre ++ [.excE e ("")]
  | none => pre



/-- The wrapper result of a run whose guest exhausted the pre-supplied
inputs: trace = earlier line entries plus the caught no-more-input
exception entry; clean exit. -/
def inputExhaustedResult (pre : List TEntry) : IResult :=
  { exitCode := 0
    timedOut := false
    stderr := ("")
    trace := wrapperTrace pre (some ("No more input provided"))
    waitingSignal := none }

/-- Step numbers `n, n+1, ...` positionally (the contiguity invariant). -/
def NumberedFrom (n : Nat) (l : List Step) : Prop :=
  ∀ i, (h : i < l.length) → (l.get ⟨i, h⟩).stepNumber = n + i

/-! ## Theorems -/

theorem analyzeAssignTarget_name (value : BExpr) (b : Behavior) (t : BExpr) :
    (analyzeAssignTarget value b t).name = b.name := by
  unfold analyzeAssignTarget
  repeat' split
  all_goals rfl

theorem analyzeAssignment_name (b : Behavior) (ts : List BExpr) (v : BExpr) :
    (analyzeAssignment b ts v).name = b.name := by
  unfold analyzeAssignment
  induction ts generalizing b with
  | nil => rfl
  | cons t rest ih => rw [List.foldl_cons, ih, analyzeAssignTarget_name]

theorem analyzeExprStmt_name (b : Behavior) (v : BExpr) :
    (analyzeExprStmt b v).name = b.name := by
  unfold analyzeExprStmt
  repeat' split
  all_goals rfl

theorem analyzeReturn_name (b : Behavior) (v : Option BExpr) :
    (analyzeReturn b v).name = b.name := by
  unfold analyzeReturn
  repeat' split
  all_goals rfl

mutual

theorem analyzeStmt_name (b : Behavior) (s : BStmt) : (analyzeStmt b s).name = b.name := by
  cases s with
  | whileS test body =>
      show (analyzeStmts _ body).name = b.name
      rw [analyzeStmts_name]
      split <;> rfl
  | forS body =>
      show (analyzeStmts _ body).name = b.name
      rw [analyzeStmts_name]
  | ifS test body orelse =>
      show (analyzeStmts (analyzeStmts _ body) orelse).name = b.name
      rw [analyzeStmts_name, analyzeStmts_name]
      split <;> split <;> rfl
  | assign targets value => exact analyzeAssignment_name b targets value
  | exprS value => exact analyzeExprStmt_name b value
  | ret value => exact analyzeReturn_name b value
  | passS => rfl

theorem analyzeStmts_name (b : Behavior) (l : List BStmt) :
    (analyzeStmts b l).name = b.name := by
  cases l with
  | nil => rfl
  | cons s rest =>
      show (analyzeStmts (analyzeStmt b s) rest).name = b.name
      rw [analyzeStmts_name, analyzeStmt_name]

end

theorem analyzeAssignTarget_usesAppend (value : BExpr) (b : Behavior) (t : BExpr) :
    (analyzeAssignTarget value b t).usesAppend = b.usesAppend := by
  unfold analyzeAssignTarget
  repeat' split
  all_goals rfl

theorem analyzeAssignment_usesAppend (b : Behavior) (ts : List BExpr) (v : BExpr) :
    (analyzeAssignment b ts v).usesAppend = b.usesAppend := by
  unfold analyzeAssignment
  induction ts generalizing b with
  | nil => rfl
  | cons t rest ih => rw [List.foldl_cons, ih, analyzeAssignTarget_usesAppend]

theorem analyzeExprStmt_usesAppend_mono (b : Behavior) (v : BExpr)
    (h : b.usesAppend = true) : (analyzeExprStmt b v).usesAppend = true := by
  unfold analyzeExprStmt
  repeat' split
  all_goals simp_all

theorem analyzeReturn_usesAppend (b : Behavior) (v : Option BExpr) :
    (analyzeReturn b v).usesAppend = b.usesAppend := by
  unfold analyzeReturn
  repeat' split
  all_goals rfl

mutual

theorem analyzeStmt_usesAppend_mono (b : Behavior) (s : BStmt)
    (h : b.usesAppend = true) : (analyzeStmt b s).usesAppend = true := by
  cases s with
  | whileS test body =>
      show (analyzeStmts _ body).usesAppend = true
      apply analyzeStmts_usesAppend_mono
      split <;> simpa
  | forS body =>
      show (analyzeStmts _ body).usesAppend = true
      apply analyzeStmts_usesAppend_mono
      simpa
  | ifS test body orelse =>
      show (analyzeStmts (analyzeStmts _ body) orelse).usesAppend = true
      apply analyzeStmts_usesAppend_mono
      apply analyzeStmts_usesAppend_mono
      split <;> split <;> simpa
  | assign targets value => rw [show analyzeStmt b (.assign targets value) =
      analyzeAssignment b targets value from rfl, analyzeAssignment_usesAppend]; exact h
  | exprS value => exact analyzeExprStmt_usesAppend_mono b value h
  | ret value => rw [show analyzeStmt b (.ret value) = analyzeReturn b value from rfl,
      analyzeReturn_usesAppend]; exact h
  | passS => exact h

theorem analyzeStmts_usesAppend_mono (b : Behavior) (l : List BStmt)
    (h : b.usesAppend = true) : (analyzeStmts b l).usesAppend = true := by
  cases l with
  | nil => exact h
  | cons s rest =>
      show (analyzeStmts (analyzeStmt b s) rest).usesAppend = true
      exact analyzeStmts_usesAppend_mono _ rest (analyzeStmt_usesAppend_mono b s h)

end

theorem classify_of_init (b : Behavior) (h : b.name = ("__init__")) :
    classifyBehaviorByLogic b = ("constructor") := by
  simp only [classifyBehaviorByLogic, h]
  rfl

theorem classify_of_usesAppend (b : Behavior) (hn : b.name ≠ ("__init__"))
    (ha : b.usesAppend = true) : classifyBehaviorByLogic b = ("push") := by
  have hinit : (getMethodNameHints b.name).isInit = false := by
    simp only [getMethodNameHints]
    simpa using hn
  simp only [classifyBehaviorByLogic, hinit, ha]
  simp

/-- C7: The Behavior Classifier returns "constructor" for every method bearing
the reserved initializer name `__init__`, whatever its body; and every
non-initializer method whose body only calls the container's `append`
primitive is classified with the push tag, regardless of the method's
literal name (renaming `push` to `zzz` yields the same classification). -/
theorem C7_constructor_and_push_name_independent :
    (∀ params body, classifyMethod ("__init__") params body = ("constructor")) ∧
    (∀ name params (calls : List (BExpr × List BExpr)),
      name ≠ ("__init__") → calls ≠ [] →
      classifyMethod name params (appendOnlyBody calls) = ("push")) := by
  constructor
  · intro params body
    have hname : (analyzeMethodBehavior ("__init__") params body).name = ("__init__") :=
      analyzeStmts_name _ _
    exact classify_of_init _ hname
  · intro name params calls hn hne
    have hname : (analyzeMethodBehavior name params (appendOnlyBody calls)).name = name :=
      analyzeStmts_name _ _
    have husa : (analyzeMethodBehavior name params (appendOnlyBody calls)).usesAppend
        = true := by
      cases calls with
      | nil => exact absurd rfl hne
      | cons c rest =>
          simp only [appendOnlyBody, List.map_cons, analyzeMethodBehavior, analyzeStmts]
          exact analyzeStmts_usesAppend_mono _ _ (by simp [analyzeStmt, analyzeExprStmt])
    exact classify_of_usesAppend _ (by rw [hname]; exact hn) husa

/-- C7 witness: concrete instantiations — an `__init__` with the
insert-at-end body is still "constructor", and a method named `zzz` whose
body is exactly one `self.data.append(x)` call is "push". -/
theorem C7_witness :
    classifyMethod ("__init__") [] bodyInsertEnd = ("constructor") ∧
    classifyMethod ("zzz") [("x")]
      (appendOnlyBody [(.attributeE (.nameE ("self")) ("data"), [.nameE ("x")])])
      = ("push") :=
  ⟨C7_constructor_and_push_name_independent.1 [] bodyInsertEnd,
   C7_constructor_and_push_name_independent.2 ("zzz") [("x")]
     [(.attributeE (.nameE ("self")) ("data"), [.nameE ("x")])]
     (by decide) (by simp)⟩

/-- C2 counterexample: the method named `insertEnd` with body
`new_node = Node(data); while cur.next != None: cur = cur.next;
cur.next = new_node` satisfies every structural premise of the claim
(creates a node, has a loop modifying next-pointers, never modifies head,
is not the initializer), yet the classifier returns "insert" — the
name-hint rule for BST-style inserts fires before the linked-structure
rule, so the name is not merely a fallback. -/
theorem C2_counterexample :
    (analyzeMethodBehavior ("insertEnd") [("data")] bodyInsertEnd).createsNewNode = true ∧
    (analyzeMethodBehavior ("insertEnd") [("data")] bodyInsertEnd).hasLoop = true ∧
    (analyzeMethodBehavior ("insertEnd") [("data")] bodyInsertEnd).modifiesNextPointers
      = true ∧
    (analyzeMethodBehavior ("insertEnd") [("data")] bodyInsertEnd).modifiesHead = false ∧
    ("insertEnd") ≠ ("__init__") ∧
    classifyMethod ("insertEnd") [("data")] bodyInsertEnd = ("insert") ∧
    classifyMethod ("insertEnd") [("data")] bodyInsertEnd ≠ ("insert_last") := by
  decide

/-- C2 (amended): the insert-at-end tag follows from the structural evidence
(creates node, loop, next-pointer mutation, no head mutation) only when the
method's name triggers none of the earlier name-consulting rules (initializer,
getter, insert/delete/traverse hints, min/max/add_vertex/add_edge/bfs/dfs
substrings) and the body uses no container primitives; under those conditions
the classification is "insert_last" for every such method name alike. -/
theorem C2_amended_structural_insert_last
    (name : String) (params : List String) (body : List BStmt) (b : Behavior)
    (hb : b = analyzeMethodBehavior name params body)
    (hinit : (getMethodNameHints b.name).isInit = false)
    (hgetter : (getMethodNameHints b.name).isGetter = false)
    (hins : (getMethodNameHints b.name).isInsert = false)
    (hdel : (getMethodNameHints b.name).isDelete = false)
    (htrav : (getMethodNameHints b.name).isTraverse = false)
    (hmin : strIn ("min") (strLower b.name) = false)
    (hmax : strIn ("max") (strLower b.name) = false)
    (hav : strIn ("add_vertex") (strLower b.name) = false)
    (hae : strIn ("add_edge") (strLower b.name) = false)
    (hbfs : strIn ("bfs") (strLower b.name) = false)
    (hdfs : strIn ("dfs") (strLower b.name) = false)
    (hpa : b.usesAppend = false) (hpp : b.usesPop = false) (hpk : b.usesPeek = false)
    (hp0 : b.usesPop0 = false) (hpl : b.usesPopleft = false)
    (hpf : b.usesPeekFront = false) (hpb : b.usesPeekBack = false)
    (hgv : b.isGraphAddVertex = false) (hge : b.isGraphAddEdge = false)
    (hc : b.createsNewNode = true) (hl : b.hasLoop = true)
    (hh : b.modifiesHead = false) (hnx : b.modifiesNextPointers = true) :
    classifyBehaviorByLogic b = ("insert_last") := by
  subst hb
  simp only [classifyBehaviorByLogic, hinit, hgetter, hins, hdel, htrav, hmin, hmax, hav,
    hae, hbfs, hdfs, hpa, hpp, hpk, hp0, hpl, hpf, hpb, hgv, hge, hc, hl, hh, hnx]
  simp

/-- C2 amended witness: the same insert-at-end body under the neutral name
`zzz` is classified "insert_last" by the amended rule. -/
theorem C2_amended_witness :
    classifyBehaviorByLogic (analyzeMethodBehavior ("zzz") [("data")] bodyInsertEnd)
      = ("insert_last") :=
  C2_amended_structural_insert_last ("zzz") [("data")] bodyInsertEnd _ rfl
    (by decide) (by decide) (by decide) (by decide) (by decide) (by decide) (by decide)
    (by decide) (by decide) (by decide) (by decide) (by decide) (by decide) (by decide)
    (by decide) (by decide) (by decide) (by decide) (by decide) (by decide) (by decide)
    (by decide) (by decide) (by decide)

/-- C5 counterexample: the function `def f(): for i in range(5): x = 1` has a
loop whose bound is a literal constant — `_is_constant_loop` even recognises
it — yet the per-function estimate is "O(n)", not the claimed "O(1)":
`_analyze_function`'s `count_loops` never consults `_is_constant_loop`. -/
theorem C5_counterexample :
    isConstantLoop constLoopFor = true ∧
    analyzeFunctionTime ("f") [constLoopFor] = ("O(n)") ∧
    analyzeFunctionTime ("f") [constLoopFor] ≠ ("O(1)") := by
  decide

/-- C5 (amended): per-function estimates count every loop, constant-bounded
or not — a function whose only loop is `for v in range(k)` (any literal `k`,
any loop variable) is estimated "O(n)"; the constant-bound exclusion lives
only in the module-level pass and affects only the nesting depth (a variable
loop over a constant loop is "O(n)" while two variable loops are "O(n²)",
but a module whose only loop is constant still reports "O(n)" because
`loop_count > 0`); and the rank table respects the ordering
O(1) < O(log n) < O(n) < O(n log n) < O(n²) < O(n³) < O(2^n) < O(n!). -/
theorem C5_amended_constant_loops_and_ranks :
    (∀ (k : Int) (v : String),
      analyzeFunctionTime ("f")
        [.forLoop (.nameN v) (.callN (.nameN ("range")) [.constN k])
          [.assignN [.nameN v] (.constN 1)] []] = ("O(n)")) ∧
    analyzeOverallTime [varOverConstLoops] = ("O(n)") ∧
    analyzeOverallTime [varOverVarLoops] = ("O(n²)") ∧
    analyzeOverallTime [constLoopFor] = ("O(n)") ∧
    (complexityRank ("O(1)") < complexityRank ("O(log n)") ∧
     complexityRank ("O(log n)") < complexityRank ("O(n)") ∧
     complexityRank ("O(n)") < complexityRank ("O(n log n)") ∧
     complexityRank ("O(n log n)") < complexityRank ("O(n²)") ∧
     complexityRank ("O(n²)") < complexityRank ("O(n³)") ∧
     complexityRank ("O(n³)") < complexityRank ("O(2^n)") ∧
     complexityRank ("O(2^n)") < complexityRank ("O(n!)")) :=
  ⟨fun _ _ => rfl, by decide, by decide, by decide, by decide⟩

mutual

theorem safeSerialize_seen_mono (heap : Heap) (seen : List Nat) (obj : PyVal)
    (depth maxDepth : Nat) (x : Nat) (hx : x ∈ seen) :
    x ∈ (safeSerialize heap seen obj depth maxDepth).2 := by
  rw [safeSerialize.eq_def]
  split
  · exact hx
  · split
    · exact hx
    · exact hx
    · exact hx
    · exact hx
    · rename_i oid
      dsimp only
      split
      · exact hx
      · split
        · split
          · exact serializeItems_seen_mono heap _ _ _ _ x (List.mem_cons_of_mem _ hx)
          · exact serializeItems_seen_mono heap _ _ _ _ x (List.mem_cons_of_mem _ hx)
        · split
          · exact serializeItems_seen_mono heap _ _ _ _ x (List.mem_cons_of_mem _ hx)
          · exact serializeItems_seen_mono heap _ _ _ _ x (List.mem_cons_of_mem _ hx)
        · split
          · exact serializeDictCapped_seen_mono heap _ _ _ _ _ x (List.mem_cons_of_mem _ hx)
          · exact serializeDictAll_seen_mono heap _ _ _ _ x (List.mem_cons_of_mem _ hx)
        · split
          · exact serializeFields_seen_mono heap _ _ _ _ x (List.mem_cons_of_mem _ hx)
          · exact List.mem_cons_of_mem _ hx
termination_by (maxDepth + 1 - depth, 0)

theorem serializeItems_seen_mono (heap : Heap) (seen : List Nat) (items : List PyVal)
    (depth maxDepth : Nat) (x : Nat) (hx : x ∈ seen) :
    x ∈ (serializeItems heap seen items depth maxDepth).2 := by
  rw [serializeItems.eq_def]
  split
  · exact hx
  · exact serializeItems_seen_mono heap _ _ _ _ x
      (safeSerialize_seen_mono heap _ _ _ _ x hx)
termination_by (maxDepth + 1 - depth, items.length)

theorem serializeDictAll_seen_mono (heap : Heap) (seen : List Nat)
    (entries : List (PyVal × PyVal)) (depth maxDepth : Nat) (x : Nat) (hx : x ∈ seen) :
    x ∈ (serializeDictAll heap seen entries depth maxDepth).2 := by
  rw [serializeDictAll.eq_def]
  split
  · exact hx
  · split
    · exact serializeDictAll_seen_mono heap _ _ _ _ x
        (safeSerialize_seen_mono heap _ _ _ _ x hx)
    · exact serializeDictAll_seen_mono heap _ _ _ _ x hx
termination_by (maxDepth + 1 - depth, entries.length)

theorem serializeDictCapped_seen_mono (heap : Heap) (seen : List Nat)
    (entries : List (PyVal × PyVal)) (count depth maxDepth : Nat) (x : Nat) (hx : x ∈ seen) :
    x ∈ (serializeDictCapped heap seen entries count depth maxDepth).2 := by
  rw [serializeDictCapped.eq_def]
  split
  · exact hx
  · split
    · split
      · exact safeSerialize_seen_mono heap _ _ _ _ x hx
      · exact serializeDictCapped_seen_mono heap _ _ _ _ _ x
          (safeSerialize_seen_mono heap _ _ _ _ x hx)
    · exact serializeDictCapped_seen_mono heap _ _ _ _ _ x hx
termination_by (maxDepth + 1 - depth, entries.length)

theorem serializeFields_seen_mono (heap : Heap) (seen : List Nat)
    (fields : List (String × PyVal)) (depth maxDepth : Nat) (x : Nat) (hx : x ∈ seen) :
    x ∈ (serializeFields heap seen fields depth maxDepth).2 := by
  rw [serializeFields.eq_def]
  split
  · exact hx
  · split
    · exact serializeFields_seen_mono heap _ _ _ _ x hx
    · exact serializeFields_seen_mono heap _ _ _ _ x
        (safeSerialize_seen_mono heap _ _ _ _ x hx)
termination_by (maxDepth + 1 - depth, fields.length)

end

theorem findScalarKeyVal_isScalar (fields : List (String × PyVal)) (keys : List String)
    (v : PyVal) (h : findScalarKeyVal fields keys = some v) : isScalar v = true := by
  induction keys with
  | nil => simp [findScalarKeyVal] at h
  | cons k rest ih =>
      rw [findScalarKeyVal] at h
      cases hk : lookupField fields k with
      | none => rw [hk] at h; exact ih h
      | some w =>
          rw [hk] at h
          dsimp only at h
          by_cases hs : isScalar w = true
          · rw [if_pos hs] at h
            cases h
            exact hs
          · rw [if_neg hs] at h
            exact ih h

/-- C4: the safe-state serializer never follows a back edge — serializing a
reference whose id is already in the seen set returns a bare string label
and leaves the seen set unchanged; that label is `TypeName(keyAttributeValue)`
when one of the probed attributes (data, val, value, id, name, key) holds a
scalar, else just `TypeName`; and on a concrete self-referential node the
whole serialization terminates with the cycle marker in place of the back
edge.  (Termination for every object graph is witnessed by `safeSerialize`
being a total function of its explicitly threaded state.) -/
theorem C4_cycle_rendering :
    (∀ (heap : Heap) (seen : List Nat) (oid depth maxDepth : Nat),
      oid ∈ seen → depth ≤ maxDepth →
      safeSerialize heap seen (.ref oid) depth maxDepth
        = (.strV (circularLabel (heap oid)), seen)) ∧
    (∀ (tn : String) (fields : List (String × PyVal)),
      (∃ v, findScalarKeyVal fields cycleKeyOrder = some v ∧ isScalar v = true ∧
        circularLabel (.instO tn fields) = tn ++ ("(") ++ pyStr v ++ (")")) ∨
      (findScalarKeyVal fields cycleKeyOrder = none ∧
        circularLabel (.instO tn fields) = tn)) ∧
    safeSerialize selfHeap [] (.ref 0) 0 10
      = (.objV ("Node") [(("data"), .intV 1), (("next"), .strV ("Node(1)"))], [0]) := by
  refine ⟨?_, ?_, ?_⟩
  · intro heap seen oid depth maxDepth hmem hd
    rw [safeSerialize.eq_def]
    rw [dif_neg (by omega)]
    dsimp only
    rw [if_pos hmem]
  · intro tn fields
    cases h : findScalarKeyVal fields cycleKeyOrder with
    | some v =>
        exact Or.inl ⟨v, rfl, findScalarKeyVal_isScalar fields cycleKeyOrder v h,
          by rw [circularLabel, h]⟩
    | none => exact Or.inr ⟨rfl, by rw [circularLabel, h]⟩
  · simp [safeSerialize, serializeFields, circularLabel, findScalarKeyVal, lookupField,
      isScalar, pyStr, dsKeys, cycleKeyOrder, selfHeap, strStarts, charPrefix]
    rfl

/-- C4 witness: a reference already in the seen set (object 0 of the
self-referential heap, at depth 3) renders exactly as `Node(1)` with the
seen set untouched. -/
theorem C4_witness :
    safeSerialize selfHeap [0] (.ref 0) 3 10 = (.strV ("Node(1)"), [0]) := by
  rw [C4_cycle_rendering.1 selfHeap [0] 0 3 10 (by simp) (by omega)]
  rfl

/-- C6 counterexample: `safe_serialize` is not free of observable state.
Its `finally` block never removes ids from the global `_seen_ids`, so a
second call on the same unchanged (acyclic!) object graph, issued in the
state the first call left behind, returns the collapsed label `Node(1)`
instead of the full field map the first call returned — the two results
differ even though the object graph snapshot is identical. -/
theorem C6_counterexample :
    safeSerialize nodeHeap [] (.ref 0) 0 10
      = (.objV ("Node") [(("data"), .intV 1), (("next"), .nullV)], [0]) ∧
    safeSerialize nodeHeap [0] (.ref 0) 0 10 = (.strV ("Node(1)"), [0]) ∧
    (safeSerialize nodeHeap (safeSerialize nodeHeap [] (.ref 0) 0 10).2 (.ref 0) 0 10).1
      ≠ (safeSerialize nodeHeap [] (.ref 0) 0 10).1 := by
  have e1 : safeSerialize nodeHeap [] (.ref 0) 0 10
      = (.objV ("Node") [(("data"), .intV 1), (("next"), .nullV)], [0]) := by
    simp [safeSerialize, serializeFields, dsKeys, lookupField, nodeHeap, strStarts,
      charPrefix]
  have e2 : safeSerialize nodeHeap [0] (.ref 0) 0 10 = (.strV ("Node(1)"), [0]) := by
    simp [safeSerialize, circularLabel, findScalarKeyVal, lookupField, isScalar, pyStr,
      cycleKeyOrder, nodeHeap]
    rfl
  refine ⟨e1, e2, ?_⟩
  rw [e1]
  dsimp only
  rw [e2]
  intro h
  exact SVal.noConfusion h

/-- C6 (amended): `safe_serialize` is deterministic as a function of the
object-graph snapshot together with the global seen set, but it is not
side-effect free: it only ever adds ids to `_seen_ids` and never removes
them (the `finally` block is `pass`), so a call leaves the visited ids
behind and a later call sees them unless the caller resets the set — which
the trace hook does before every serialization round. -/
theorem C6_amended_seen_set_growth :
    (∀ (heap : Heap) (seen : List Nat) (obj : PyVal) (depth maxDepth x : Nat),
      x ∈ seen → x ∈ (safeSerialize heap seen obj depth maxDepth).2) ∧
    (safeSerialize nodeHeap [] (.ref 0) 0 10).2 = [0] ∧
    (safeSerialize nodeHeap (safeSerialize nodeHeap [] (.ref 0) 0 10).2 (.ref 0) 0 10).1
      = .strV ("Node(1)") := by
  refine ⟨fun heap seen obj depth maxDepth x hx =>
    safeSerialize_seen_mono heap seen obj depth maxDepth x hx, ?_, ?_⟩
  · simp [safeSerialize, serializeFields, dsKeys, lookupField, nodeHeap, strStarts,
      charPrefix]
  · simp [safeSerialize, serializeFields, dsKeys, lookupField, nodeHeap, circularLabel,
      findScalarKeyVal, isScalar, pyStr, cycleKeyOrder, strStarts, charPrefix]
    rfl

/-- C6 amended witness: a pre-seeded id survives into the result state of a
concrete call. -/
theorem C6_amended_witness :
    (7 : Nat) ∈ (safeSerialize nodeHeap [7] (.noneV) 0 10).2 :=
  C6_amended_seen_set_growth.1 nodeHeap [7] (.noneV) 0 10 7 (by simp)

theorem numberedFrom_cons (s : Step) (t : List Step) (n : Nat)
    (hs : s.stepNumber = n) (ht : NumberedFrom (n + 1) t) : NumberedFrom n (s :: t) := by
  intro i h
  cases i with
  | zero => simpa using hs
  | succ j =>
      have hj : j < t.length := by simpa using h
      have := ht j hj
      simpa [Nat.add_assoc, Nat.add_comm, Nat.add_left_comm] using this

theorem numberedFrom_append_one (l : List Step) (s : Step) (n : Nat)
    (hl : NumberedFrom n l) (hs : s.stepNumber = n + l.length) :
    NumberedFrom n (l ++ [s]) := by
  intro i h
  rcases Nat.lt_or_ge i l.length with hi | hi
  · rw [List.get_eq_getElem, List.getElem_append_left hi]
    exact hl i hi
  · have hlen : i < l.length + 1 := by simpa using h
    have hieq : i = l.length := by omega
    subst hieq
    rw [List.get_eq_getElem]
    simpa [List.getElem_concat_length] using hs

theorem buildSteps_numberedFrom (codeLines : List String) (es : List TEntry) :
    ∀ (acc : List Step) (n : Nat), NumberedFrom 1 acc → n = acc.length + 1 →
      NumberedFrom 1 (buildSteps codeLines es acc n) := by
  induction es with
  | nil => intro acc n hacc _; simpa [buildSteps] using hacc
  | cons e rest ih =>
      intro acc n hacc hn
      cases e with
      | excE err tb =>
          rw [buildSteps]
          apply ih
          · exact numberedFrom_append_one acc _ 1 hacc (by simp [hn, Nat.add_comm])
          · simp [hn]
          
      | lineE ln out =>
          rw [buildSteps]
          split
          · exact ih acc n hacc hn
          · apply ih
            · exact numberedFrom_append_one acc _ 1 hacc (by simp [hn, Nat.add_comm])
            · simp [hn]

theorem buildSteps_length (codeLines : List String) (es : List TEntry) :
    ∀ (acc : List Step) (n : Nat),
      (buildSteps codeLines es acc n).length
        = acc.length + countableEntries codeLines es := by
  induction es with
  | nil => intro acc n; simp [buildSteps, countableEntries]
  | cons e rest ih =>
      intro acc n
      cases e with
      | excE err tb =>
          rw [buildSteps, countableEntries, ih]
          simp [Nat.add_comm, Nat.add_assoc, Nat.add_left_comm]
      | lineE ln out =>
          rw [buildSteps, countableEntries]
          split
          · rw [ih]
          · rw [ih]
            simp [Nat.add_comm, Nat.add_assoc, Nat.add_left_comm]

theorem buildPrintSteps_numberedFrom (codeLines : List String) :
    ∀ (n ln : Nat), NumberedFrom n (buildPrintSteps n ln codeLines) := by
  induction codeLines with
  | nil => intro n ln i h; simp [buildPrintSteps] at h
  | cons l rest ih =>
      intro n ln
      rw [buildPrintSteps]
      split
      · exact ih n (ln + 1)
      · split
        · exact numberedFrom_cons _ _ n rfl (ih (n + 1) (ln + 1))
        · exact ih n (ln + 1)

theorem printFallback_numberedFrom (codeLines : List String) (n : Nat) :
    NumberedFrom n (printFallback codeLines n) := by
  rw [printFallback]
  split
  · intro i h
    simp only [List.length_cons, List.length_nil] at h
    have hi : i = 0 := by omega
    subst hi
    rfl
  · exact buildPrintSteps_numberedFrom codeLines n 1

theorem createStepsFromResult_numberedFrom (codeLines : List String) (r : IResult) :
    NumberedFrom 1 (createStepsFromResult codeLines r 1) := by
  rw [createStepsFromResult]
  split
  · exact printFallback_numberedFrom codeLines 1
  · split
    · exact printFallback_numberedFrom codeLines 1
    · exact buildSteps_numberedFrom codeLines r.trace [] 1
        (fun i h => absurd h (Nat.not_lt_zero i)) rfl

theorem executeInteractive_numberedFrom (codeLines : List String) (r : IResult) :
    NumberedFrom 1 (executeInteractive codeLines r) := by
  rw [executeInteractive]
  have h1 : NumberedFrom 1 (createStepsFromResult codeLines r 1) :=
    createStepsFromResult_numberedFrom codeLines r
  set s1 := createStepsFromResult codeLines r 1 with hs1
  have h2 : NumberedFrom 1
      (if r.exitCode ≠ 0 then s1 ++ createErrorStep codeLines r (1 + s1.length)
       else s1) := by
    split
    · exact numberedFrom_append_one _ _ 1 h1 rfl
    · exact h1
  set s2 := if r.exitCode ≠ 0 then s1 ++ createErrorStep codeLines r (1 + s1.length)
    else s1 with hs2
  cases hsig : r.waitingSignal with
  | none => simpa using h2
  | some ln =>
      simp only []
      exact numberedFrom_append_one _ _ 1 h2 (Nat.add_comm _ 1)

theorem findErrorMessage_append (a b : List Step) :
    findErrorMessage (a ++ b)
      = match findErrorMessage a with
        | some e => some e
        | none => findErrorMessage b := by
  induction a with
  | nil => simp [findErrorMessage]
  | cons s t ih =>
      rw [List.cons_append, findErrorMessage, findErrorMessage]
      cases hs : s.state.error with
      | none => simpa using ih
      | some e =>
          by_cases he : (strTrim e == ("")) = true
          · simpa [he] using ih
          · simp [he]

theorem countableEntries_append (codeLines : List String) (a b : List TEntry) :
    countableEntries codeLines (a ++ b)
      = countableEntries codeLines a + countableEntries codeLines b := by
  induction a with
  | nil => simp [countableEntries]
  | cons e rest ih =>
      cases e with
      | excE err tb =>
          rw [List.cons_append, countableEntries, countableEntries, ih]
          omega
      | lineE ln out =>
          rw [List.cons_append, countableEntries, countableEntries]
          split
          · rw [ih]
          · rw [ih]; omega

theorem findErrorMessage_buildSteps_exc (codeLines : List String) (msg tb : String)
    (hmsg : (strTrim msg == ("")) = false) :
    ∀ (pre : List TEntry), (∀ e ∈ pre, ∃ ln out, e = TEntry.lineE ln out) →
      ∀ (acc : List Step) (n : Nat), findErrorMessage acc = none →
      findErrorMessage (buildSteps codeLines (pre ++ [.excE msg tb]) acc n) = some msg := by
  intro pre
  induction pre with
  | nil =>
      intro _ acc n hacc
      rw [List.nil_append, buildSteps, buildSteps]
      rw [findErrorMessage_append, hacc]
      simp [findErrorMessage, hmsg]
  | cons e rest ih =>
      intro hpre acc n hacc
      obtain ⟨ln, out, he⟩ := hpre e (List.mem_cons_self e rest)
      subst he
      rw [List.cons_append, buildSteps]
      split
      · exact ih (fun e he' => hpre e (List.mem_cons_of_mem _ he')) acc n hacc
      · apply ih (fun e he' => hpre e (List.mem_cons_of_mem _ he'))
        rw [findErrorMessage_append, hacc]
        simp [findErrorMessage]

theorem runInputRequests_exhausted (values : List String) :
    ∀ (k idx : Nat), idx ≤ values.length → values.length < idx + k →
      runInputRequests values k idx = .error ("No more input provided") := by
  intro k
  induction k with
  | zero => intro idx h1 h2; omega
  | succ k ih =>
      intro idx h1 h2
      by_cases hidx : idx < values.length
      · simp only [runInputRequests, customInput, if_pos hidx]
        exact ih (idx + 1) (by omega) (by omega)
      · simp only [runInputRequests, customInput, if_neg hidx]

theorem runInputRequests_all_consumed (values : List String) :
    ∀ (k idx : Nat), idx + k ≤ values.length →
      runInputRequests values k idx = .ok (idx + k) := by
  intro k
  induction k with
  | zero => intro idx _; simp [runInputRequests]
  | succ k ih =>
      intro idx h
      have hidx : idx < values.length := by omega
      simp only [runInputRequests, customInput, if_pos hidx]
      rw [ih (idx + 1) (by omega)]
      congr 1
      omega

/-- C9: for every modelled execution result — success, error, or waiting —
the synthesized step list carries step numbers `1, 2, ...` contiguously by
position, and every response `run_code_guest` returns reports a
`totalSteps` equal to the length of its step list. -/
theorem C9_contiguous_numbering_and_total :
    (∀ (codeLines : List String) (r : IResult),
      NumberedFrom 1 (executeInteractive codeLines r)) ∧
    (∀ (req : ExecutionCreateRequest) (execId : String) (outcome : ExecOutcome)
        (resp : ExecutionResponse),
      runCodeGuest req execId outcome = Except.ok resp →
      resp.totalSteps = resp.steps.length) := by
  constructor
  · exact executeInteractive_numberedFrom
  · intro req execId outcome resp h
    simp only [runCodeGuest] at h
    repeat' split at h
    all_goals simp_all [createErrorResponse]
    all_goals (subst h; rfl)

/-- C9 witness: the first step of a concrete traced failing run is numbered
1, and a concrete error response reports `totalSteps` = list length. -/
theorem C9_witness :
    ((executeInteractive [("x = 1")]
        { exitCode := 1, timedOut := false, stderr := ("boom"),
          trace := [.lineE 1 none], waitingSignal := none }).get
      ⟨0, by decide⟩).stepNumber = 1 + 0 ∧
    (createErrorResponse ("e1") (strTrim ("x = 1")) ("stack") ("m") []).totalSteps
      = (createErrorResponse ("e1") (strTrim ("x = 1")) ("stack") ("m") []).steps.length :=
  ⟨C9_contiguous_numbering_and_total.1 [("x = 1")]
      { exitCode := 1, timedOut := false, stderr := ("boom"),
        trace := [.lineE 1 none], waitingSignal := none } 0 (by decide),
   C9_contiguous_numbering_and_total.2
      { code := ("x = 1"), dataType := some ("stack"), inputValues := [],
        autoDetect := false } ("e1") (.raised ("m")) _ rfl⟩

/-- C8: for every interactive execution ending with a non-zero exit code
(and no stdout waiting marker), the returned list is exactly the steps
synthesizable from the partial trace followed by the single appended
terminal error step; the result is never empty, the trace-derived steps are
preserved verbatim whenever they exist, and every non-skipped trace entry
yields its step. -/
theorem C8_partial_trace_then_error_step (codeLines : List String) (r : IResult)
    (hexit : r.exitCode ≠ 0) (hsig : r.waitingSignal = none) :
    executeInteractive codeLines r
      = createStepsFromResult codeLines r 1
        ++ createErrorStep codeLines r (1 + (createStepsFromResult codeLines r 1).length) ∧
    (createErrorStep codeLines r
        (1 + (createStepsFromResult codeLines r 1).length)).length = 1 ∧
    executeInteractive codeLines r ≠ [] ∧
    (buildSteps codeLines r.trace [] 1 ≠ [] →
      createStepsFromResult codeLines r 1 = buildSteps codeLines r.trace [] 1) ∧
    (buildSteps codeLines r.trace [] 1).length = countableEntries codeLines r.trace := by
  have h1 : executeInteractive codeLines r
      = createStepsFromResult codeLines r 1
        ++ createErrorStep codeLines r (1 + (createStepsFromResult codeLines r 1).length) := by
    rw [executeInteractive, hsig]
    rw [if_pos hexit]
  refine ⟨h1, rfl, ?_, ?_, ?_⟩
  · rw [h1]
    simp [createErrorStep]
  · intro hne
    rw [createStepsFromResult]
    have htr : r.trace.isEmpty = false := by
      cases htr : r.trace.isEmpty
      · rfl
      · exfalso
        apply hne
        rw [List.isEmpty_iff] at htr
        rw [htr]
        rfl
    simp only [htr, Bool.false_eq_true, if_false]
    rw [if_neg (by simpa [List.isEmpty_iff] using hne)]
  · simpa using buildSteps_length codeLines r.trace [] 1

/-- C8 witness: a concrete failing run with a one-line trace returns a
non-empty step list. -/
theorem C8_witness :
    executeInteractive [("x = 1")]
      { exitCode := 1, timedOut := false, stderr := ("boom"),
        trace := [.lineE 1 none], waitingSignal := none } ≠ [] :=
  (C8_partial_trace_then_error_step [("x = 1")]
    { exitCode := 1, timedOut := false, stderr := ("boom"),
      trace := [.lineE 1 none], waitingSignal := none } (by decide) rfl).2.2.1

/-- C1 counterexample: a run that exceeds the wall-clock timeout is answered
through `create_error_response`, so the terminal response has status
`"error"`, not the claimed `"timeout"`. -/
theorem C1_counterexample :
    (runCodeGuest
        { code := ("s = []"), dataType := some ("stack"), inputValues := [],
          autoDetect := false } ("exec1") ExecOutcome.timeout).toOption.map
        ExecutionResponse.status = some ("error") ∧
    (runCodeGuest
        { code := ("s = []"), dataType := some ("stack"), inputValues := [],
          autoDetect := false } ("exec1") ExecOutcome.timeout).toOption.map
        ExecutionResponse.status ≠ some ("timeout") := by
  constructor
  · rfl
  · decide

/-- C1 (amended): for every valid request (declared, supported type), a
timed-out run yields the `create_error_response` response: status `"error"`
(a value distinct from the schema's `"timeout"` member, which no code path
produces) with the distinctive message
"Execution timeout - code took too long to execute"; timeouts are
distinguished from guest exceptions only by that message text. -/
theorem C1_amended_timeout_reported_as_error (req : ExecutionCreateRequest)
    (execId : String)
    (hauto : (req.dataType.getD ("") == ("") || req.dataType.getD ("") == ("auto")
        || req.autoDetect) = false)
    (hsupp : supportedTypes.contains (strLower (req.dataType.getD (""))) = true) :
    runCodeGuest req execId ExecOutcome.timeout
      = .ok (createErrorResponse execId (strTrim req.code) (req.dataType.getD (""))
          ("Execution timeout - code took too long to execute") []) ∧
    (createErrorResponse execId (strTrim req.code) (req.dataType.getD (""))
        ("Execution timeout - code took too long to execute") []).status = ("error") ∧
    (createErrorResponse execId (strTrim req.code) (req.dataType.getD (""))
        ("Execution timeout - code took too long to execute") []).errorMessage
      = some ("Execution timeout - code took too long to execute") ∧
    ("error") ≠ ("timeout") := by
  refine ⟨?_, rfl, rfl, by decide⟩
  simp only [runCodeGuest, hauto, hsupp]
  rfl

/-- C1 witness: the amended statement at a concrete stack request. -/
theorem C1_witness :
    runCodeGuest
        { code := ("s = []"), dataType := some ("stack"), inputValues := [],
          autoDetect := false } ("exec1") ExecOutcome.timeout
      = .ok (createErrorResponse ("exec1") ("s = []") ("stack")
          ("Execution timeout - code took too long to execute") []) :=
  (C1_amended_timeout_reported_as_error
    { code := ("s = []"), dataType := some ("stack"), inputValues := [],
      autoDetect := false } ("exec1") (by decide) (by decide)).1

/-- C10: for every request whose data-structure type is absent or `"auto"`
or whose autoDetect flag is set, `run_code_guest` raises `AttributeError`
before any execution begins — `__init__` never initializes the
`self.detector` attribute the auto-detection branch dereferences — and so
never returns a response on that path, whatever the execution outcome
would have been. -/
theorem C10_auto_detect_attribute_error (req : ExecutionCreateRequest)
    (execId : String) (outcome : ExecOutcome)
    (h : (req.dataType.getD ("") == ("") || req.dataType.getD ("") == ("auto")
        || req.autoDetect) = true) :
    runCodeGuest req execId outcome
      = .error (.attributeError
          ("\x27ExecuteController\x27 object has no attribute \x27detector\x27")) := by
  simp only [runCodeGuest, h]
  simp [controllerGetattr, controllerInitAttrs]

/-- C10 witness: a concrete `"auto"` request fails with the
`AttributeError`, for any outcome the simulators could have produced. -/
theorem C10_witness :
    runCodeGuest
        { code := ("x = 1"), dataType := some ("auto"), inputValues := [],
          autoDetect := false } ("e2") (.completed [])
      = .error (.attributeError
          ("\x27ExecuteController\x27 object has no attribute \x27detector\x27")) :=
  C10_auto_detect_attribute_error
    { code := ("x = 1"), dataType := some ("auto"), inputValues := [],
      autoDetect := false } ("e2") (.completed []) (by decide)

/-- C3: a guest that requests more interactive inputs than were supplied
never hangs: the shim consumes all supplied values successfully and fails
with the dedicated "No more input provided" error exactly at the first
exhausted request; the wrapper catches it as a trace exception entry, and
the terminal response is the clearly marked input-exhausted failure —
status `"error"` with errorMessage "No more input provided" (the second
disjunct of the claim; the `"waiting"` status arises only from the separate
stdout waiting-signal path). -/
theorem C3_input_exhaustion_no_hang (values : List String) (k : Nat)
    (pre : List TEntry) (codeLines : List String) (req : ExecutionCreateRequest)
    (execId : String)
    (hk : values.length < k)
    (hpre : ∀ e ∈ pre, ∃ ln out, e = TEntry.lineE ln out)
    (hauto : (req.dataType.getD ("") == ("") || req.dataType.getD ("") == ("auto")
        || req.autoDetect) = false)
    (hsupp : supportedTypes.contains (strLower (req.dataType.getD (""))) = true) :
    runInputRequests values k 0 = .error ("No more input provided") ∧
    runInputRequests values values.length 0 = .ok values.length ∧
    runCodeGuest req execId
        (.completed (executeInteractive codeLines (inputExhaustedResult pre)))
      = .ok (createErrorResponse execId (strTrim req.code) (req.dataType.getD (""))
          ("No more input provided")
          (executeInteractive codeLines (inputExhaustedResult pre))) ∧
    (createErrorResponse execId (strTrim req.code) (req.dataType.getD (""))
        ("No more input provided")
        (executeInteractive codeLines (inputExhaustedResult pre))).status = ("error") ∧
    (createErrorResponse execId (strTrim req.code) (req.dataType.getD (""))
        ("No more input provided")
        (executeInteractive codeLines (inputExhaustedResult pre))).errorMessage
      = some ("No more input provided") := by
  have hne : buildSteps codeLines (pre ++ [.excE ("No more input provided") ("")]) [] 1
      ≠ [] := by
    intro hempty
    have hlen := buildSteps_length codeLines
      (pre ++ [.excE ("No more input provided") ("")]) [] 1
    rw [hempty, countableEntries_append] at hlen
    simp [countableEntries] at hlen
  have hsteps : executeInteractive codeLines (inputExhaustedResult pre)
      = buildSteps codeLines (pre ++ [.excE ("No more input provided") ("")]) [] 1 := by
    simp [executeInteractive, createStepsFromResult, inputExhaustedResult, wrapperTrace,
      List.isEmpty_iff, hne]
  have herr : findErrorMessage
      (executeInteractive codeLines (inputExhaustedResult pre))
      = some ("No more input provided") := by
    rw [hsteps]
    exact findErrorMessage_buildSteps_exc codeLines ("No more input provided") ("")
      (by decide) pre hpre [] 1 rfl
  refine ⟨runInputRequests_exhausted values k 0 (by omega) (by omega),
    by simpa using runInputRequests_all_consumed values values.length 0 (by omega),
    ?_, rfl, rfl⟩
  simp only [runCodeGuest, hauto, hsupp]
  simp only [Bool.false_eq_true, if_false, Bool.not_true]
  rw [herr]

/-- C3 witness: one supplied value, two requests, a one-line trace prefix,
and a concrete stack request. -/
theorem C3_witness :
    runInputRequests [("5")] 2 0 = .error ("No more input provided") ∧
    runCodeGuest
        { code := ("x = input()"), dataType := some ("stack"), inputValues := [("5")],
          autoDetect := false } ("e3")
        (.completed (executeInteractive [("x = input()")]
          (inputExhaustedResult [.lineE 1 none])))
      = .ok (createErrorResponse ("e3") ("x = input()") ("stack")
          ("No more input provided")
          (executeInteractive [("x = input()")]
            (inputExhaustedResult [.lineE 1 none]))) := by
  have h := C3_input_exhaustion_no_hang [("5")] 2 [.lineE 1 none] [("x = input()")]
    { code := ("x = input()"), dataType := some ("stack"), inputValues := [("5")],
      autoDetect := false } ("e3") (by decide)
    (by intro e he; simp at he; exact ⟨1, none, he⟩) (by decide) (by decide)
  exact ⟨h.1, h.2.2.1⟩
